import Mathlib

/-!
Verification of the plan-analysis rule engine of `sql_analyzer.py`
(`SQLAnalyzer.analyze_performance`).

The Python function receives a list of dictionaries (one per EXPLAIN-plan
row).  Every field read by the engine may be absent from the dictionary,
present with value `None`, or present with a proper value; we model that
three-state situation with `PyField`.  The getters below mirror the exact
`dict.get` calls of the source, including their defaults, and the rule
conditions mirror the truthiness tests of the source.
-/

namespace SQLAnalyzer

/-- One dictionary entry: absent from the dict, present as Python `None`,
or present with a value. -/
inductive PyField (α : Type) where
  | absent : PyField α
  | null : PyField α
  | val : α → PyField α
deriving DecidableEq

/-- One EXPLAIN-plan row, with exactly the fields `analyze_performance`
reads: `table`, `select_type`, `type`, `key`, `Extra`, `rows`. -/
structure PlanRow where
  table : PyField String
  select_type : PyField String
  type_value : PyField String
  key : PyField String
  extra : PyField String
  rows : PyField Int
deriving DecidableEq

/-- A single quote character, U+0027. -/
def sq : String := String.singleton (Char.ofNat 39)

/-- Wrap a table name in single quotes, as every message of the source does. -/
def quoted (t : String) : String := sq ++ t ++ sq

/-- Reading `row.get("table", "unknown")` as it is rendered into an f-string:
an absent field gives the default `"unknown"`, a `None` value prints as
`"None"`. -/
def tableName : PyField String → String
  | .absent => "unknown"
  | .null => "None"
  | .val s => s

/-- Reading `row.get(k, d)` for a string field with default `d`: the result is the
Python value, `none` standing for Python `None`. -/
def getStrOr (d : String) : PyField String → Option String
  | .absent => some d
  | .null => none
  | .val s => some s

/-- Reading `row.get("key")`: absent and `None` both give Python `None`. -/
def getKey : PyField String → Option String
  | .val s => some s
  | _ => none

/-- Reading `row.get("rows", 0)`: absent gives the default `0`, a `None` value gives
Python `None`. -/
def getRows : PyField Int → Option Int
  | .absent => some 0
  | .null => none
  | .val n => some n

/-- Character-list version of Python string containment: does the first list
occur at the very front of the second? -/
def matchFront : List Char → List Char → Bool
  | [], _ => true
  | _ :: _, [] => false
  | a :: as, b :: bs => a == b && matchFront as bs

/-- Does `pat` occur as a contiguous segment of the second list? -/
def hasSegment (pat : List Char) : List Char → Bool
  | [] => pat.isEmpty
  | b :: bs => matchFront pat (b :: bs) || hasSegment pat bs

/-- Python `pat in s` for strings: contiguous-substring containment. -/
def containsStr (s pat : String) : Bool := hasSegment pat.data s.data

/-- Python `extra and pat in extra` where `extra = row.get("Extra", "")`:
false when the field value is `None` or the empty string (both falsy),
otherwise substring containment. -/
def extraHas (row : PlanRow) (pat : String) : Bool :=
  match getStrOr "" row.extra with
  | none => false
  | some s => decide (s ≠ "") && containsStr s pat

/-- Python `o and o > t` for `o` an optional integer: `None` and `0` are
falsy. -/
def truthyIntGT (o : Option Int) (t : Int) : Bool :=
  match o with
  | none => false
  | some n => decide (n ≠ 0) && decide (t < n)

/-- R1: `type_value == "ALL"`. -/
def fireR1 (row : PlanRow) : Bool :=
  getStrOr "" row.type_value == some "ALL"

/-- R2: `key_value is None and type_value not in ("ALL", "index")`. -/
def fireR2 (row : PlanRow) : Bool :=
  (getKey row.key).isNone &&
    decide (getStrOr "" row.type_value ≠ some "ALL" ∧
            getStrOr "" row.type_value ≠ some "index")

/-- R3: `extra and "Using filesort" in extra`. -/
def fireR3 (row : PlanRow) : Bool := extraHas row "Using filesort"

/-- R4: `extra and "Using temporary" in extra`. -/
def fireR4 (row : PlanRow) : Bool := extraHas row "Using temporary"

/-- R5: `extra and "Using where" in extra and key_value is None`. -/
def fireR5 (row : PlanRow) : Bool :=
  extraHas row "Using where" && (getKey row.key).isNone

/-- R6: `rows and rows > 10000`. -/
def fireR6 (row : PlanRow) : Bool := truthyIntGT (getRows row.rows) 10000

/-- The `rows` value used in the R6 message (when R6 fires the field is a
truthy integer, so the default never shows). -/
def rowsOr0 (row : PlanRow) : Int := (getRows row.rows).getD 0

/-- Python thousands grouping, `format(n, ",")`, applied to the reversed digit
list: insert a comma after every three characters. -/
def group3 : List Char → List Char
  | a :: b :: c :: d :: rest => a :: b :: c :: Char.ofNat 44 :: group3 (d :: rest)
  | l => l

/-- Thousands-grouped decimal rendering of a natural number. -/
def commaFmtNat (n : Nat) : String := String.mk (group3 (toString n).data.reverse).reverse

/-- Python `f"{n:,}"` for an integer. -/
def commaFmt (n : Int) : String :=
  if n < 0 then "-" ++ commaFmtNat n.natAbs else commaFmtNat n.natAbs

/-- R1 problem text. -/
def probR1 (t : String) : String := "Full Table Scan on table " ++ quoted t

/-- R1 suggestion text. -/
def sugR1 (t : String) : String :=
  "A full table scan was detected on table " ++ quoted t ++
    ". Consider adding an index on the column(s) used in your WHERE or ON clauses."

/-- R2 problem text. -/
def probR2 (t : String) : String := "No index used for table " ++ quoted t

/-- R2 suggestion text. -/
def sugR2 (t : String) : String :=
  "The query did not use an index for table " ++ quoted t ++
    ". Review your WHERE clause and consider adding an appropriate index."

/-- R3 problem text. -/
def probR3 (t : String) : String := "Using filesort for table " ++ quoted t

/-- R3 suggestion text. -/
def sugR3 (t : String) : String :=
  "The query is using a filesort operation on table " ++ quoted t ++
    ". Consider adding an index on the column(s) in your ORDER BY clause."

/-- R4 problem text. -/
def probR4 (t : String) : String := "Using temporary table for " ++ quoted t

/-- R4 suggestion text. -/
def sugR4 (t : String) : String :=
  "The query is creating a temporary table for " ++ quoted t ++
    ". This is often caused by GROUP BY or UNION. Review your query logic or " ++
    "ensure columns in GROUP BY are indexed."

/-- R5 problem text. -/
def probR5 (t : String) : String := "Unindexed WHERE clause on table " ++ quoted t

/-- R5 suggestion text. -/
def sugR5 (t : String) : String :=
  "The WHERE clause on table " ++ quoted t ++
    " is not using an index. This will significantly slow down the query. Add an index on the filtered columns."

/-- R6 problem text. -/
def probR6 (t : String) (n : Int) : String :=
  "Large number of rows scanned (" ++ commaFmt n ++ ") on table " ++ quoted t

/-- R6 suggestion text. -/
def sugR6 (t : String) (n : Int) : String :=
  "Table " ++ quoted t ++ " is scanning " ++ commaFmt n ++
    " rows. This indicates a potential performance bottleneck. " ++
    "Consider adding more selective indexes or refining your WHERE conditions."

/-- G1 problem text. -/
def joinOrderProblem : String := "Potential suboptimal join order"

/-- G1 suggestion text, naming the first row count. -/
def joinOrderSug (n : Int) : String :=
  "The first table in the join order scans " ++ commaFmt n ++
    " rows. Consider reordering tables in your JOIN to start with the most selective table."

/-- G2 fallback suggestion text. -/
def noIssuesMsg : String :=
  "No obvious performance issues detected. Query appears to be well-optimized."

/-- The problem/suggestion pairs one row appends, in the textual source
order R1, R2, R3, R4, R5, R6.  The source appends to `problems` and
`suggestions` in lockstep; every rule body appends exactly one string to
each, so a pair list is the faithful rendering. -/
def rowPairs (row : PlanRow) : List (String × String) :=
  let t := tableName row.table
  (if fireR1 row then [(probR1 t, sugR1 t)] else []) ++
  (if fireR2 row then [(probR2 t, sugR2 t)] else []) ++
  (if fireR3 row then [(probR3 t, sugR3 t)] else []) ++
  (if fireR4 row then [(probR4 t, sugR4 t)] else []) ++
  (if fireR5 row then [(probR5 t, sugR5 t)] else []) ++
  (if fireR6 row then [(probR6 t (rowsOr0 row), sugR6 t (rowsOr0 row))] else [])

/-- G1 guard: `len(explain_plan) > 1` and
`first_table_rows and first_table_rows > 1000` on `explain_plan[0]`. -/
def fireG1 : List PlanRow → Bool
  | r :: _ :: _ => truthyIntGT (getRows r.rows) 1000
  | _ => false

/-- Reading `explain_plan[0].get("rows", 0)`, rendered into the G1 message. -/
def firstRows : List PlanRow → Int
  | r :: _ => rowsOr0 r
  | [] => 0

/-- The pair G1 appends, when it fires. -/
def g1Part (plan : List PlanRow) : List (String × String) :=
  if fireG1 plan then [(joinOrderProblem, joinOrderSug (firstRows plan))] else []

/-- All problem/suggestion pairs appended by the rule loop: per-row rules in
row order, then the join-order rule G1. -/
def pairsOf (plan : List PlanRow) : List (String × String) :=
  (plan.map rowPairs).flatten ++ g1Part plan

/-- The body of `SQLAnalyzer.analyze_performance`: per-row rules in row order, then the
join-order rule G1, then the G2 fallback suggestion when `problems` ended up
empty.  Returns `(problems, suggestions)`. -/
def analyze_performance (plan : List PlanRow) : List String × List String :=
  if (pairsOf plan).map Prod.fst = [] then
    ((pairsOf plan).map Prod.fst, (pairsOf plan).map Prod.snd ++ [noIssuesMsg])
  else
    ((pairsOf plan).map Prod.fst, (pairsOf plan).map Prod.snd)

/-- Scenario A row: `{table: "users", accessType: "ALL", key: null,
extra: "", rowsEstimate: 50000}`. -/
def rowUsers : PlanRow :=
  ⟨.val "users", .absent, .val "ALL", .null, .val "", .val 50000⟩

/-- Scenario B row: `{table: "orders", accessType: "ref", key: "idx_customer",
extra: "Using where", rowsEstimate: 20}`. -/
def rowOrders : PlanRow :=
  ⟨.val "orders", .absent, .val "ref", .val "idx_customer", .val "Using where", .val 20⟩

example : commaFmt 50000 = "50,000" := by decide
example : commaFmt 999 = "999" := by decide
example : commaFmt 1234567 = "1,234,567" := by decide
example : containsStr "Using filesort, Using temporary" "Using temporary" = true := by decide
example :
    analyze_performance [rowOrders] = ([], [noIssuesMsg]) := by decide
example :
    analyze_performance [rowUsers] =
      ([probR1 "users", probR6 "users" 50000],
       [sugR1 "users", sugR6 "users" 50000]) := by decide

/-- The first component of the result is always the problems accumulated by
the rules, whether or not the fallback fired. -/
theorem analyze_fst (plan : List PlanRow) :
    (analyze_performance plan).1 = (pairsOf plan).map Prod.fst := by
  unfold analyze_performance
  split <;> rfl

/-- When some rule fired, the second component is exactly the paired
suggestions. -/
theorem analyze_snd_of_ne (plan : List PlanRow)
    (h : (pairsOf plan).map Prod.fst ≠ []) :
    (analyze_performance plan).2 = (pairsOf plan).map Prod.snd := by
  unfold analyze_performance
  split
  · rename_i hnil
    exact absurd hnil h
  · rfl

/-- When no rule fired, the fallback suggestion is appended. -/
theorem analyze_snd_of_nil (plan : List PlanRow)
    (h : (pairsOf plan).map Prod.fst = []) :
    (analyze_performance plan).2 = (pairsOf plan).map Prod.snd ++ [noIssuesMsg] := by
  unfold analyze_performance
  split
  · rfl
  · rename_i hnil
    exact absurd h hnil

/-- C1: for every plan, if `problems` is non-empty then the two lists have
equal length, and if `problems` is empty then `suggestions` is exactly the
single fallback entry. -/
theorem pairing_invariant (plan : List PlanRow) :
    ((analyze_performance plan).1 = [] → (analyze_performance plan).2.length = 1) ∧
    ((analyze_performance plan).1 ≠ [] →
      (analyze_performance plan).2.length = (analyze_performance plan).1.length) := by
  constructor
  · intro h
    rw [analyze_fst] at h
    rw [analyze_snd_of_nil plan h]
    have hp : pairsOf plan = [] := List.map_eq_nil_iff.mp h
    simp [hp]
  · intro h
    rw [analyze_fst] at h
    rw [analyze_snd_of_ne plan h, analyze_fst]
    simp

/-- Witness for C1 at Scenario A, where two problems are found. -/
theorem pairing_invariant_witness :
    (analyze_performance [rowUsers]).2.length = (analyze_performance [rowUsers]).1.length :=
  (pairing_invariant [rowUsers]).2 (by decide)

/-- C10: the suggestions list is never empty: either a rule fired and paired
a suggestion with its problem, or the fallback suggestion was appended. -/
theorem suggestions_nonempty (plan : List PlanRow) :
    1 ≤ (analyze_performance plan).2.length := by
  by_cases h : (pairsOf plan).map Prod.fst = []
  · rw [analyze_snd_of_nil plan h]
    simp
  · rw [analyze_snd_of_ne plan h]
    have hp : pairsOf plan ≠ [] := fun he => h (by simp [he])
    have hs : (pairsOf plan).map Prod.snd ≠ [] := by simpa using hp
    exact List.length_pos.mpr hs

/-- C3: Scenario B (indexed `ref` access with a key) and Scenario D (empty
plan) produce no problems and exactly the single fallback suggestion, and G1
does not fire on the empty plan. -/
theorem scenario_noIssues :
    analyze_performance [rowOrders] =
      ([], ["No obvious performance issues detected. Query appears to be well-optimized."]) ∧
    analyze_performance [] =
      ([], ["No obvious performance issues detected. Query appears to be well-optimized."]) ∧
    fireG1 [] = false := by
  decide

/-- C4: Scenario A: the full-scan row with 50000 estimated rows yields the
full-table-scan problem and the thousands-grouped large-row-count problem,
with two paired suggestions. -/
theorem scenario_fullScan :
    (analyze_performance [rowUsers]).1 =
      ["Full Table Scan on table " ++ quoted "users",
       "Large number of rows scanned (50,000) on table " ++ quoted "users"] ∧
    (analyze_performance [rowUsers]).2.length = 2 := by
  decide

/-- C8: the rule engine is a pure function of the plan: two evaluations of
the same plan give identical results. -/
theorem deterministic (plan : List PlanRow) :
    analyze_performance plan = analyze_performance plan := rfl

/-- Strings with different first characters are different. -/
theorem ne_of_headChar {a b : String} (h : a.data.head? ≠ b.data.head?) : a ≠ b :=
  fun e => h (congrArg (fun s => s.data.head?) e)

/-- Membership in a conditional singleton list forces equality. -/
theorem mem_if_single {α : Type} {c : Prop} [Decidable c] {x y : α}
    (h : x ∈ if c then [y] else ([] : List α)) : x = y := by
  split at h
  · simpa using h
  · simp at h

/-- The R1 problem text starts with `F`, not `P`. -/
theorem probR1_ne_join (t : String) : probR1 t ≠ joinOrderProblem := by
  apply ne_of_headChar
  have h1 : (probR1 t).data.head? = some (Char.ofNat 70) := rfl
  rw [h1]
  decide

/-- The R2 problem text starts with `N`, not `P`. -/
theorem probR2_ne_join (t : String) : probR2 t ≠ joinOrderProblem := by
  apply ne_of_headChar
  have h1 : (probR2 t).data.head? = some (Char.ofNat 78) := rfl
  rw [h1]
  decide

/-- The R3 problem text starts with `U`, not `P`. -/
theorem probR3_ne_join (t : String) : probR3 t ≠ joinOrderProblem := by
  apply ne_of_headChar
  have h1 : (probR3 t).data.head? = some (Char.ofNat 85) := rfl
  rw [h1]
  decide

/-- The R4 problem text starts with `U`, not `P`. -/
theorem probR4_ne_join (t : String) : probR4 t ≠ joinOrderProblem := by
  apply ne_of_headChar
  have h1 : (probR4 t).data.head? = some (Char.ofNat 85) := rfl
  rw [h1]
  decide

/-- The R5 problem text starts with `U`, not `P`. -/
theorem probR5_ne_join (t : String) : probR5 t ≠ joinOrderProblem := by
  apply ne_of_headChar
  have h1 : (probR5 t).data.head? = some (Char.ofNat 85) := rfl
  rw [h1]
  decide

/-- The R6 problem text starts with `L`, not `P`. -/
theorem probR6_ne_join (t : String) (n : Int) : probR6 t n ≠ joinOrderProblem := by
  apply ne_of_headChar
  have h1 : (probR6 t n).data.head? = some (Char.ofNat 76) := rfl
  rw [h1]
  decide

/-- No per-row rule produces the G1 problem text. -/
theorem rowPairs_fst_ne (row : PlanRow) :
    ∀ pr ∈ rowPairs row, pr.1 ≠ joinOrderProblem := by
  intro pr h
  simp only [rowPairs, List.mem_append] at h
  rcases h with ((((h | h) | h) | h) | h) | h
  · rw [mem_if_single h]
    exact probR1_ne_join _
  · rw [mem_if_single h]
    exact probR2_ne_join _
  · rw [mem_if_single h]
    exact probR3_ne_join _
  · rw [mem_if_single h]
    exact probR4_ne_join _
  · rw [mem_if_single h]
    exact probR5_ne_join _
  · rw [mem_if_single h]
    exact probR6_ne_join _ _

/-- Per-row rules contribute no occurrence of the G1 problem text. -/
theorem count_rows_zero (plan : List PlanRow) :
    (((plan.map rowPairs).flatten).map Prod.fst).count joinOrderProblem = 0 := by
  rw [List.count_eq_zero]
  intro hmem
  rw [List.mem_map] at hmem
  obtain ⟨pr, hpr, he⟩ := hmem
  rw [List.mem_flatten] at hpr
  obtain ⟨l, hl, hprl⟩ := hpr
  rw [List.mem_map] at hl
  obtain ⟨row, _, rfl⟩ := hl
  exact rowPairs_fst_ne row pr hprl he

/-- The G1 condition in the words of the claim: the plan has more than one
row, and the first row has a present (non-null) rows estimate strictly
greater than 1000; an absent field counts as zero, hence never fires. -/
def specG1Cond (plan : List PlanRow) : Bool :=
  decide (1 < plan.length) &&
    (match plan with
     | r :: _ =>
       (match getRows r.rows with
        | some n => decide (1000 < n)
        | none => false)
     | [] => false)

/-- The source guard coincides with the claim condition (a truthy value
greater than 1000 is the same as a present value greater than 1000). -/
theorem fireG1_eq_spec (plan : List PlanRow) : fireG1 plan = specG1Cond plan := by
  match plan with
  | [] => rfl
  | [r] =>
    simp [fireG1, specG1Cond]
  | r :: s :: rest =>
    show truthyIntGT (getRows r.rows) 1000 = _
    have hl : decide (1 < (r :: s :: rest).length) = true := by
      simp [List.length_cons]
    simp only [specG1Cond, hl, Bool.true_and]
    cases ho : getRows r.rows with
    | none => simp [truthyIntGT]
    | some n =>
      simp only [truthyIntGT]
      by_cases h : (1000 : Int) < n
      · have hn : n ≠ 0 := by omega
        simp [h, hn]
      · simp [h]

/-- C2: the problem "Potential suboptimal join order" occurs exactly once
when the plan has more than one row and the first row carries a rows
estimate above 1000, and never otherwise; when it fires, the paired
suggestion names the first row count.  The condition reads only `plan[0]`
and the plan length. -/
theorem joinOrder_rule (plan : List PlanRow) :
    ((analyze_performance plan).1.count joinOrderProblem
      = if specG1Cond plan then 1 else 0) ∧
    (specG1Cond plan = true →
      joinOrderSug (firstRows plan) ∈ (analyze_performance plan).2) := by
  have hfg : fireG1 plan = specG1Cond plan := fireG1_eq_spec plan
  constructor
  · rw [analyze_fst, pairsOf, List.map_append, List.count_append, count_rows_zero,
      Nat.zero_add, ← hfg]
    by_cases hf : fireG1 plan
    · simp [g1Part, hf]
    · simp [g1Part, hf]
  · intro hs
    have hf : fireG1 plan = true := by rw [hfg]; exact hs
    have hmem : (joinOrderProblem, joinOrderSug (firstRows plan)) ∈ pairsOf plan := by
      rw [pairsOf]
      apply List.mem_append_right
      simp [g1Part, hf]
    have hne : (pairsOf plan).map Prod.fst ≠ [] :=
      List.ne_nil_of_mem (List.mem_map.mpr ⟨_, hmem, rfl⟩)
    rw [analyze_snd_of_ne plan hne]
    exact List.mem_map.mpr ⟨_, hmem, rfl⟩

/-- Scenario C first row: `{table: "a", accessType: "ref", key: "k",
extra: "", rowsEstimate: 5000}`. -/
def rowJoinA : PlanRow :=
  ⟨.val "a", .absent, .val "ref", .val "k", .val "", .val 5000⟩

/-- Scenario C second row: `{table: "b", accessType: "ref", key: "k2",
extra: "", rowsEstimate: 10}`. -/
def rowJoinB : PlanRow :=
  ⟨.val "b", .absent, .val "ref", .val "k2", .val "", .val 10⟩

/-- Witness for C2 on Scenario C, where G1 fires. -/
theorem joinOrder_rule_witness :
    joinOrderSug (firstRows [rowJoinA, rowJoinB])
      ∈ (analyze_performance [rowJoinA, rowJoinB]).2 :=
  (joinOrder_rule [rowJoinA, rowJoinB]).2 (by decide)

/-- The per-row rule conditions, indexed 0..5 in the textual source order
R1..R6. -/
def fireRule : Nat → PlanRow → Bool
  | 0, row => fireR1 row
  | 1, row => fireR2 row
  | 2, row => fireR3 row
  | 3, row => fireR4 row
  | 4, row => fireR5 row
  | 5, row => fireR6 row
  | _, _ => false

/-- The problem/suggestion pair appended by rule `i` on a row. -/
def rulePair : Nat → PlanRow → String × String
  | 0, row => (probR1 (tableName row.table), sugR1 (tableName row.table))
  | 1, row => (probR2 (tableName row.table), sugR2 (tableName row.table))
  | 2, row => (probR3 (tableName row.table), sugR3 (tableName row.table))
  | 3, row => (probR4 (tableName row.table), sugR4 (tableName row.table))
  | 4, row => (probR5 (tableName row.table), sugR5 (tableName row.table))
  | 5, row =>
    (probR6 (tableName row.table) (rowsOr0 row), sugR6 (tableName row.table) (rowsOr0 row))
  | _, _ => ("", "")

/-- What one row contributes, stated as: of the rule indices 0..5 in
increasing order, keep those whose rule fires, and emit the pair of each
kept rule. -/
def orderedPairs (row : PlanRow) : List (String × String) :=
  ((List.range 6).filter (fun i => fireRule i row)).map (fun i => rulePair i row)

/-- The per-row block of the source emits exactly the pairs of fired rules in the
fixed order R1..R6. -/
theorem rowPairs_eq_ordered (row : PlanRow) : rowPairs row = orderedPairs row := by
  unfold orderedPairs
  rw [show List.range 6 = [0, 1, 2, 3, 4, 5] from rfl]
  simp only [List.filter_cons, List.filter_nil, fireRule]
  simp only [rowPairs]
  split_ifs <;> simp [rulePair]

/-- Mapping a projection over all accumulated pairs splits into the per-row
contributions in row order followed by the G1 contribution. -/
theorem pairsOf_map (plan : List PlanRow) (f : String × String → String) :
    (pairsOf plan).map f =
      (plan.map (fun r => (orderedPairs r).map f)).flatten ++ (g1Part plan).map f := by
  rw [pairsOf, List.map_append, List.map_flatten, List.map_map]
  have he : (List.map f ∘ rowPairs) = fun r => (orderedPairs r).map f := by
    funext r
    show (rowPairs r).map f = (orderedPairs r).map f
    rw [rowPairs_eq_ordered]
  rw [he]

/-- C5: problems and suggestions keep the order rows and rules fired in:
each row contributes its fired rules in the fixed order R1..R6, rows
contribute in plan order, G1 comes after every per-row entry, and only the
final fallback can follow it. -/
theorem order_preservation (plan : List PlanRow) :
    (analyze_performance plan).1 =
      (plan.map (fun r => (orderedPairs r).map Prod.fst)).flatten
        ++ (g1Part plan).map Prod.fst ∧
    (analyze_performance plan).2 =
      ((plan.map (fun r => (orderedPairs r).map Prod.snd)).flatten
        ++ (g1Part plan).map Prod.snd)
        ++ (if (analyze_performance plan).1 = [] then [noIssuesMsg] else []) := by
  constructor
  · rw [analyze_fst, pairsOf_map]
  · by_cases h : (pairsOf plan).map Prod.fst = []
    · have h1 : (analyze_performance plan).1 = [] := by rw [analyze_fst]; exact h
      rw [analyze_snd_of_nil plan h, pairsOf_map, h1, if_pos rfl]
    · have h1 : (analyze_performance plan).1 ≠ [] := by rw [analyze_fst]; exact h
      rw [analyze_snd_of_ne plan h, pairsOf_map, if_neg h1, List.append_nil]

/-- A string containing a non-empty pattern is itself non-empty. -/
theorem containsStr_ne_empty {s pat : String} (hp : pat.data ≠ [])
    (h : containsStr s pat = true) : s ≠ "" := by
  intro he
  subst he
  rw [containsStr, show ("" : String).data = [] from rfl,
    show hasSegment pat.data [] = pat.data.isEmpty from rfl] at h
  cases hd : pat.data with
  | nil => exact hp hd
  | cons a as =>
    rw [hd] at h
    simp at h

/-- C6: a row whose `Extra` value contains both `"Using filesort"` and
`"Using temporary"` as substrings fires R3 and R4, each appending its own
pair; in general a row appends exactly one pair per satisfied rule. -/
theorem rules_independent (row : PlanRow) (s : String)
    (h1 : row.extra = PyField.val s)
    (h2 : containsStr s "Using filesort" = true)
    (h3 : containsStr s "Using temporary" = true) :
    (probR3 (tableName row.table), sugR3 (tableName row.table)) ∈ rowPairs row ∧
    (probR4 (tableName row.table), sugR4 (tableName row.table)) ∈ rowPairs row ∧
    ∀ r : PlanRow, (rowPairs r).length =
      ((List.range 6).filter (fun i => fireRule i r)).length := by
  have hne : s ≠ "" := containsStr_ne_empty (by decide) h2
  have hR3 : fireR3 row = true := by
    rw [fireR3, extraHas, h1]
    show (decide (s ≠ "") && containsStr s "Using filesort") = true
    rw [h2, decide_eq_true hne]
    rfl
  have hR4 : fireR4 row = true := by
    rw [fireR4, extraHas, h1]
    show (decide (s ≠ "") && containsStr s "Using temporary") = true
    rw [h3, decide_eq_true hne]
    rfl
  refine ⟨?_, ?_, ?_⟩
  · simp [rowPairs, hR3]
  · simp [rowPairs, hR4]
  · intro r
    rw [rowPairs_eq_ordered r, orderedPairs, List.length_map]

/-- A row on which both R3 and R4 fire (Scenario E). -/
def rowBoth : PlanRow :=
  ⟨.val "t", .absent, .val "ref", .val "k", .val "Using filesort, Using temporary", .val 5⟩

/-- Witness for C6 on Scenario E. -/
theorem rules_independent_witness :
    (probR3 (tableName rowBoth.table), sugR3 (tableName rowBoth.table)) ∈ rowPairs rowBoth ∧
    (probR4 (tableName rowBoth.table), sugR4 (tableName rowBoth.table)) ∈ rowPairs rowBoth :=
  ⟨(rules_independent rowBoth "Using filesort, Using temporary" rfl
      (by decide) (by decide)).1,
   (rules_independent rowBoth "Using filesort, Using temporary" rfl
      (by decide) (by decide)).2.1⟩

/-- Front matching survives extending the scanned list on the right. -/
theorem matchFront_append (p l1 l2 : List Char) (h : matchFront p l1 = true) :
    matchFront p (l1 ++ l2) = true := by
  induction p generalizing l1 with
  | nil => rfl
  | cons a as ih =>
    cases l1 with
    | nil => simp [matchFront] at h
    | cons b bs =>
      rw [List.cons_append]
      rw [matchFront] at h
      rw [matchFront]
      rw [Bool.and_eq_true] at h
      rw [Bool.and_eq_true]
      exact ⟨h.1, ih bs h.2⟩

/-- The empty pattern occurs in every list. -/
theorem hasSegment_of_nil (l : List Char) : hasSegment [] l = true := by
  induction l with
  | nil => rfl
  | cons b bs ih =>
    rw [hasSegment]
    simp [matchFront]

/-- A segment of the left part is a segment of the whole. -/
theorem hasSegment_append_left (p l1 l2 : List Char) (h : hasSegment p l1 = true) :
    hasSegment p (l1 ++ l2) = true := by
  induction l1 with
  | nil =>
    have hp : p = [] := by
      rw [show hasSegment p [] = p.isEmpty from rfl] at h
      cases p with
      | nil => rfl
      | cons a as => simp at h
    subst hp
    exact hasSegment_of_nil l2
  | cons b bs ih =>
    rw [List.cons_append]
    rw [hasSegment] at h
    rw [hasSegment]
    rw [Bool.or_eq_true] at h
    rw [Bool.or_eq_true]
    cases h with
    | inl h =>
      have := matchFront_append p (b :: bs) l2 h
      rw [List.cons_append] at this
      exact Or.inl this
    | inr h => exact Or.inr (ih h)

/-- A segment of the right part is a segment of the whole. -/
theorem hasSegment_append_right (p l1 l2 : List Char) (h : hasSegment p l2 = true) :
    hasSegment p (l1 ++ l2) = true := by
  induction l1 with
  | nil => exact h
  | cons b bs ih =>
    rw [List.cons_append, hasSegment, Bool.or_eq_true]
    exact Or.inr ih

/-- Substring containment survives appending on the right. -/
theorem containsStr_append_left (s t pat : String) (h : containsStr s pat = true) :
    containsStr (s ++ t) pat = true := by
  rw [containsStr, String.data_append]
  exact hasSegment_append_left _ _ _ h

/-- Substring containment survives prepending on the left. -/
theorem containsStr_append_right (t s pat : String) (h : containsStr s pat = true) :
    containsStr (t ++ s) pat = true := by
  rw [containsStr, String.data_append]
  exact hasSegment_append_right _ _ _ h

/-- C7: when the row has no `table` entry, every problem and every
suggestion produced for that row contains the literal `"unknown"`. -/
theorem table_fallback (row : PlanRow) (h : row.table = PyField.absent) :
    ∀ pr ∈ rowPairs row,
      containsStr pr.1 "unknown" = true ∧ containsStr pr.2 "unknown" = true := by
  intro pr hpr
  have ht : tableName row.table = "unknown" := by
    rw [h]
    rfl
  simp only [rowPairs, ht, List.mem_append] at hpr
  rcases hpr with ((((h1 | h1) | h1) | h1) | h1) | h1
  · rw [mem_if_single h1]
    exact ⟨by decide, by decide⟩
  · rw [mem_if_single h1]
    exact ⟨by decide, by decide⟩
  · rw [mem_if_single h1]
    exact ⟨by decide, by decide⟩
  · rw [mem_if_single h1]
    exact ⟨by decide, by decide⟩
  · rw [mem_if_single h1]
    exact ⟨by decide, by decide⟩
  · rw [mem_if_single h1]
    constructor
    · show containsStr (probR6 "unknown" (rowsOr0 row)) "unknown" = true
      rw [probR6]
      exact containsStr_append_right _ _ _ (by decide)
    · show containsStr (sugR6 "unknown" (rowsOr0 row)) "unknown" = true
      rw [sugR6]
      exact containsStr_append_left _ _ _
        (containsStr_append_left _ _ _
          (containsStr_append_left _ _ _
            (containsStr_append_left _ _ _ (by decide))))

/-- A row without a `table` entry on which R1 fires. -/
def rowNoTable : PlanRow :=
  ⟨.absent, .absent, .val "ALL", .null, .val "", .val 0⟩

/-- Witness for C7 on a table-less full-scan row. -/
theorem table_fallback_witness :
    containsStr (probR1 (tableName rowNoTable.table), sugR1 (tableName rowNoTable.table)).1
        "unknown" = true ∧
    containsStr (probR1 (tableName rowNoTable.table), sugR1 (tableName rowNoTable.table)).2
        "unknown" = true :=
  table_fallback rowNoTable rfl
    (probR1 (tableName rowNoTable.table), sugR1 (tableName rowNoTable.table)) (by decide)

/-- C9: a present-but-falsy `Extra` value (Python `None` or the empty
string) makes the truthiness guard reject R3, R4 and R5, so none of the
extra-based rules fires and no substring test touches the null value. -/
theorem nullExtra_safe (row : PlanRow)
    (h : row.extra = PyField.null ∨ row.extra = PyField.val "") :
    fireR3 row = false ∧ fireR4 row = false ∧ fireR5 row = false := by
  have hx : ∀ pat, extraHas row pat = false := by
    intro pat
    rcases h with h | h <;> simp [extraHas, h, getStrOr]
  refine ⟨?_, ?_, ?_⟩
  · rw [fireR3]
    exact hx _
  · rw [fireR4]
    exact hx _
  · rw [fireR5, hx, Bool.false_and]

/-- A row whose `Extra` entry is Python `None`. -/
def rowNullExtra : PlanRow :=
  ⟨.val "x", .absent, .val "ref", .val "k", .null, .val 1⟩

/-- Witness for C9 on a row with a null `Extra`. -/
theorem nullExtra_safe_witness :
    fireR3 rowNullExtra = false ∧ fireR4 rowNullExtra = false ∧
      fireR5 rowNullExtra = false :=
  nullExtra_safe rowNullExtra (Or.inl rfl)

end SQLAnalyzer
